import Mathlib

/-
Verification of the heatmap visualization engine of gotraceui.

This file gives a shallow embedding of the heatmap code (`Heatmap`,
`computeBuckets`, `computeSaturations`, the cache/geometry part of
`Heatmap.Layout`, and its hit-test tail) and proves or refutes the frozen
claims about it.

Modelling conventions:
- Go `int` counts, sizes and indices are modelled as `ℕ`: every value stored
  in `Heatmap.data` is a count that starts at 0 and is only incremented, and
  all sample values handled by the claims are non-negative.
- Go `float32` pointer coordinates and pixel arithmetic are modelled as `ℚ`.
  The comparisons in the hover guard are exact in both `float32` and `ℚ`; the
  concrete inputs used for counterexamples below are chosen so that every
  `float32` operation involved is exact (small integers and exact quotients),
  hence the `ℚ` model and the `float32` code agree on them.
- A Go `panic` (out-of-range slice index, or the explicit
  `panic("couldn't find bucket")`) is modelled by returning `none`.
- `time.Duration` (`XBucketSize`) is modelled as `ℕ` (the spec constrains it
  to positive multiples of 10ms; no claim depends on negative durations).
-/

/-- Ceiling division on `ℕ`, modelling
`int(math.Ceil(float64(hm.MaxY) / float64(hm.YBucketSize)))`.
For the `int`-sized values of this program the `float64` computation is
exact, so it equals the exact ceiling `(MaxY + YBucketSize - 1) / YBucketSize`. -/
def ceilDivNat (a b : ℕ) : ℕ := (a + b - 1) / b

/-- The Y-bin computation inside `computeBuckets`:
`bin := y / hm.YBucketSize; if bin >= hm.numYBuckets { bin = hm.numYBuckets - 1 }`. -/
def yBin (yBucketSize numYBuckets v : ℕ) : ℕ :=
  let bin := v / yBucketSize
  if numYBuckets ≤ bin then numYBuckets - 1 else bin

/-- One grid-cell increment `hm.data[idx]++`.  `List.set` is a no-op out of
range where Go would panic; all theorems below establish the index is in
range under their hypotheses, so the two agree there. -/
def bumpCell (d : List ℕ) (idx : ℕ) : List ℕ :=
  d.set idx (d.getD idx 0 + 1)

/-- Cache key, modelling `heatmapCacheKey` (the `image.Point` field `size` is
split into its two coordinates). -/
structure heatmapCacheKey where
  sizeX : ℕ
  sizeY : ℕ
  useLinearColors : Bool
  yBucketSize : ℕ
  xBucketSize : ℕ
deriving DecidableEq, Repr

/-- A bucket reported by the hit test, modelling `HeatmapBucket`.
`Count` is `ℤ` because `-1` is the "no hover" sentinel. -/
structure HeatmapBucket where
  XStart : ℕ
  XEnd : ℕ
  YStart : ℕ
  YEnd : ℕ
  Count : ℤ
deriving DecidableEq, Repr

/-- An axis-aligned rectangle of rounded pixel coordinates, modelling the
four `round32(...)` corners fed to one cell's path. -/
structure RectQ where
  x0 : ℤ
  y0 : ℤ
  x1 : ℤ
  y1 : ℤ
deriving DecidableEq, Repr

/-- The recorded geometry of one cache rebuild: for each saturation value,
the list of cell rectangles appended to that saturation's `clip.Path`
(flattened into one `paint.FillShape` per entry). -/
abbrev Geometry := List (ℕ × List RectQ)

/-- The heatmap state, modelling the fields of `Heatmap`.
`pointer`/`pointerConstraint` are split into coordinates, and the recorded
macro `cachedOps`/`cachedMacro` is modelled by the `Geometry` it contains. -/
structure Heatmap where
  MaxY : ℕ
  UseLinearColors : Bool
  XBucketSize : ℕ
  YBucketSize : ℕ
  numXBuckets : ℕ
  numYBuckets : ℕ
  data : List ℕ
  origData : List (List ℕ)
  pointerX : ℚ
  pointerY : ℚ
  pointerConstraintX : ℕ
  pointerConstraintY : ℕ
  hovered : HeatmapBucket
  cacheKey : heatmapCacheKey
  cachedMacro : Geometry
  linearSaturations : List ℕ
  rankedSaturations : List ℕ
deriving DecidableEq, Repr

/-- The double loop of `computeBuckets` building the count grid: start from
`make([]int, numXBuckets*numYBuckets)` and, for each series, for each
`(i, y)` with `i` the per-series X index, increment cell
`i*numYBuckets + yBin(y)`. -/
def computeBucketsData (YBS numY numX : ℕ) (origData : List (List ℕ)) : List ℕ :=
  origData.foldl
    (fun d xBuckets =>
      xBuckets.enum.foldl
        (fun d2 p => bumpCell d2 (p.1 * numY + yBin YBS numY p.2)) d)
    (List.replicate (numX * numY) 0)

/-- Embeds `(*Heatmap).computeBuckets`: rebuild `numYBuckets` and the
column-major count grid `data` from `origData`. -/
def computeBuckets (hm : Heatmap) : Heatmap :=
  let numY := ceilDivNat hm.MaxY hm.YBucketSize
  { hm with numYBuckets := numY,
            data := computeBucketsData hm.YBucketSize numY hm.numXBuckets hm.origData }

/-- The tail of the dedup loop in `computeSaturations`, with `prev` the last
value appended to `unique`. -/
def dedupKeep (prev : ℕ) : List ℕ → List ℕ
  | [] => []
  | v :: vs => if v = prev then dedupKeep prev vs else v :: dedupKeep v vs

/-- The dedup loop of `computeSaturations` over the sorted copy.  In the code
`prev` starts at `-1`, which never equals a (non-negative) count, so the
first element is always kept. -/
def dedupSorted : List ℕ → List ℕ
  | [] => []
  | v :: vs => v :: dedupKeep v vs

/-- Embeds `sort.SearchInts(a, x)`: the smallest index `i` with `a[i] >= x`
(`len a` if there is none).  For the sorted lists it is applied to, the
binary search of the Go standard library returns exactly this index. -/
def searchInts (a : List ℕ) (x : ℕ) : ℕ :=
  (a.takeWhile (fun v => decide (v < x))).length

/-- The per-cell body of the saturation loop: the ranked and linear
saturation of one cell value `v`, or `none` for the
`panic("couldn't find bucket")` branch.  `uint8(0xFF * (a / b))` is modelled
as the exact truncation `255 * a / b`; all quantities stay in `[0, 255]`. -/
def satPair (unique : List ℕ) (maxV v : ℕ) : Option (ℕ × ℕ) :=
  let satIdx := searchInts unique v
  if satIdx = unique.length then none
  else
    let r := 255 * (satIdx + 1) / unique.length
    let r2 := if r = 0 then 1 else r
    let l := 255 * v / maxV
    let l2 := if l = 0 then 1 else l
    some (r2, l2)

/-- The saturation loop over all cells, producing the ranked and linear
tables (in that order), or `none` if any cell panics. -/
def satTables (unique : List ℕ) (maxV : ℕ) : List ℕ → Option (List ℕ × List ℕ)
  | [] => some ([], [])
  | v :: vs =>
    match satPair unique maxV v, satTables unique maxV vs with
    | some (r, l), some (rs, ls) => some (r :: rs, l :: ls)
    | _, _ => none

/-- The sorted copy of the grid, modelling `sort.Ints` on a copy of
`hm.data` (any correct ascending sort of `ℕ` produces this list). -/
def sortedData (data : List ℕ) : List ℕ :=
  data.insertionSort (· ≤ ·)

/-- `sorted[len(sorted)-1]`: the maximum cell value.  The dedup loop reuses
`sorted`'s backing array but only compacts values leftwards, so the last
entry of the backing array is still the maximum when it is read. -/
def maxCount (data : List ℕ) : ℕ :=
  (sortedData data).getLastD 0

/-- The deduplicated ascending list of distinct observed cell values. -/
def uniqueOf (data : List ℕ) : List ℕ :=
  dedupSorted (sortedData data)

/-- The total ranked-saturation function (what `satPair` returns in its
`some` branch). -/
def rankSat (unique : List ℕ) (v : ℕ) : ℕ :=
  let r := 255 * (searchInts unique v + 1) / unique.length
  if r = 0 then 1 else r

/-- The total linear-saturation function (what `satPair` returns in its
`some` branch). -/
def linSat (maxV v : ℕ) : ℕ :=
  let l := 255 * v / maxV
  if l = 0 then 1 else l

/-- Embeds `(*Heatmap).computeSaturations`.  Returns `none` exactly when the
Go code would hit `panic("couldn't find bucket")`. -/
def computeSaturations (hm : Heatmap) : Option Heatmap :=
  if hm.data = [] then some hm
  else
    match satTables (uniqueOf hm.data) (maxCount hm.data) hm.data with
    | none => none
    | some (rs, ls) =>
      some { hm with rankedSaturations := rs, linearSaturations := ls }

/-- Modelled from the spec: `round32` (defined elsewhere in the repository,
not under the provided sources) rounds a `float32` to the nearest integer;
the spec's pixel-rectangle computation is `xStart = round(x * xStepPx)` etc.
Modelled as round-half-up on `ℚ` (the `float32` tie-breaking on exact `.5`
values is round-half-even; no claim below depends on tie values). -/
def round32q (q : ℚ) : ℤ := ⌊q + 1 / 2⌋

/-- The saturation table selected by the color mode (`hm.UseLinearColors`). -/
def satTable (hm : Heatmap) : List ℕ :=
  if hm.UseLinearColors then hm.linearSaturations else hm.rankedSaturations

/-- The rounded pixel rectangle of cell `(x, y)` in the rebuild loop of
`Heatmap.Layout` (the Y axis is flipped: row 0 is at the bottom). -/
def cellRect (dX dY numX numY x y : ℕ) : RectQ :=
  let xStepPx : ℚ := (dX : ℚ) / (numX : ℚ)
  let yStepPx : ℚ := (dY : ℚ) / (numY : ℚ)
  { x0 := round32q ((x : ℚ) * xStepPx)
    y1 := round32q ((dY : ℚ) - (y : ℚ) * yStepPx)
    x1 := round32q (((x : ℚ) + 1) * xStepPx)
    y0 := round32q ((dY : ℚ) - ((y : ℚ) + 1) * yStepPx) }

/-- The rectangles appended to the path accumulator of saturation `s` during
one cache rebuild: all nonzero-count cells whose saturation is `s`, in the
iteration order of the rebuild loop (`x` outer, `y` inner).  Cell lookups use
index `x*numYBuckets + y < numXBuckets*numYBuckets ≤ len(data)`, in range. -/
def cellRects (hm : Heatmap) (dX dY s : ℕ) : List RectQ :=
  let numY := hm.numYBuckets
  let numX := hm.data.length / numY
  (List.range numX).flatMap fun x =>
    (List.range numY).filterMap fun y =>
      let idx := x * numY + y
      if hm.data.getD idx 0 ≠ 0 ∧ (satTable hm).getD idx 0 = s then
        some (cellRect dX dY numX numY x y)
      else none

/-- The geometry recorded by one cache rebuild of `Heatmap.Layout`: the 256
`paint.FillShape` calls, one per saturation value `i` (color
`NRGBA(255, 255-i, 255-i, 255)`), each filling that saturation's accumulated
path.  The loop `for i := range paths` emits a fill for every `i` in
`0..255`, whether or not any cell used that saturation. -/
def buildGeometry (hm : Heatmap) (dX dY : ℕ) : Geometry :=
  (List.range 256).map fun s => (s, cellRects hm dX dY s)

/-- Follows the claim's words (not the source): the distinct saturation
values actually used by nonzero-count cells, for comparison with the number
of fill operations `buildGeometry` emits. -/
def usedSaturations (hm : Heatmap) : List ℕ :=
  let numY := hm.numYBuckets
  let numX := hm.data.length / numY
  (((List.range numX).flatMap fun x =>
    (List.range numY).filterMap fun y =>
      let idx := x * numY + y
      if hm.data.getD idx 0 ≠ 0 then some ((satTable hm).getD idx 0)
      else none)).dedup

/-- The hover validity guard of `Heatmap.Layout`:
`hm.pointerConstraint == dims && hm.pointer.X > 0 && hm.pointer.Y > 0 &&
hm.pointer.X <= float32(dims.X) && hm.pointer.Y <= float32(dims.Y)`. -/
def hoverValid (hm : Heatmap) (dX dY : ℕ) : Prop :=
  hm.pointerConstraintX = dX ∧ hm.pointerConstraintY = dY ∧
  0 < hm.pointerX ∧ 0 < hm.pointerY ∧
  hm.pointerX ≤ (dX : ℚ) ∧ hm.pointerY ≤ (dY : ℚ)

instance (hm : Heatmap) (dX dY : ℕ) : Decidable (hoverValid hm dX dY) := by
  unfold hoverValid; infer_instance

/-- The hovered X bucket index `x := int(hm.pointer.X / xStepPx)`.  Go `int()`
truncates toward zero; under the hover guard the operand is non-negative, so
truncation coincides with `Int.floor`. -/
def hoverX (hm : Heatmap) (dX : ℕ) : ℕ :=
  let numX := hm.data.length / hm.numYBuckets
  let xStepPx : ℚ := (dX : ℚ) / (numX : ℚ)
  (⌊hm.pointerX / xStepPx⌋).toNat

/-- The hovered Y bucket index
`y := int((float32(dims.Y) - hm.pointer.Y) / yStepPx)`. -/
def hoverY (hm : Heatmap) (dY : ℕ) : ℕ :=
  let yStepPx : ℚ := (dY : ℚ) / (hm.numYBuckets : ℚ)
  (⌊((dY : ℚ) - hm.pointerY) / yStepPx⌋).toNat

/-- The sentinel assigned on an invalid hover: `HeatmapBucket{Count: -1}`
(all other fields are Go zero values). -/
def sentinelBucket : HeatmapBucket :=
  { XStart := 0, XEnd := 0, YStart := 0, YEnd := 0, Count := -1 }

/-- The hit-test tail of `Heatmap.Layout` (lines computing `hm.hovered`).
Returns the bucket stored into `hm.hovered`, or `none` when the grid lookup
`hm.data[x*hm.numYBuckets+y]` would panic (index out of range). -/
def hitTest (hm : Heatmap) (dX dY : ℕ) : Option HeatmapBucket :=
  if hoverValid hm dX dY then
    match hm.data.get? (hoverX hm dX * hm.numYBuckets + hoverY hm dY) with
    | none => none
    | some v =>
      some { XStart := hoverX hm dX * hm.XBucketSize
             XEnd := hoverX hm dX * hm.XBucketSize + hm.XBucketSize
             YStart := hoverY hm dY * hm.YBucketSize
             YEnd := hoverY hm dY * hm.YBucketSize + hm.YBucketSize
             Count := (v : ℤ) }
  else some sentinelBucket

/-- The cache key built at the start of each layout pass. -/
def mkKey (dX dY : ℕ) (hm : Heatmap) : heatmapCacheKey :=
  { sizeX := dX, sizeY := dY, useLinearColors := hm.UseLinearColors,
    yBucketSize := hm.YBucketSize, xBucketSize := hm.XBucketSize }

/-- The result of the cache stage of one layout pass. -/
structure LayoutResult where
  state : Heatmap
  didAggregate : Bool
  didRebuild : Bool
  emitted : Geometry
deriving DecidableEq, Repr

/-- The re-aggregation guard of `Heatmap.Layout`:
`if key.xBucketSize != hm.cacheKey.xBucketSize || key.yBucketSize != hm.cacheKey.yBucketSize`
then `numXBuckets = len(origData[0])`, `computeBuckets`, `computeSaturations`
(the `if` is stated positively here, with the branches swapped accordingly).
`origData` is non-empty whenever this runs (`SetData` indexes `data[0]`), so
`headD []` matches `hm.origData[0]`. -/
def aggStep (hm : Heatmap) (key : heatmapCacheKey) : Option (Heatmap × Bool) :=
  if key.xBucketSize = hm.cacheKey.xBucketSize ∧ key.yBucketSize = hm.cacheKey.yBucketSize then
    some (hm, false)
  else
    (computeSaturations
        (computeBuckets { hm with numXBuckets := (hm.origData.headD []).length })).map
      fun h2 => (h2, true)

/-- The cache check and (re)build of `Heatmap.Layout`: on a key hit, replay
the stored macro; otherwise rebuild the geometry, store the new key and
macro, and emit the new macro. -/
def cacheStep (hm1 : Heatmap) (key : heatmapCacheKey) (dX dY : ℕ) (didAgg : Bool) :
    LayoutResult :=
  if hm1.cacheKey = key then
    { state := hm1, didAggregate := didAgg, didRebuild := false,
      emitted := hm1.cachedMacro }
  else
    let g := buildGeometry hm1 dX dY
    { state := { hm1 with cacheKey := key, cachedMacro := g },
      didAggregate := didAgg, didRebuild := true, emitted := g }

/-- The cache stage of `Heatmap.Layout` (everything before the hit test):
re-aggregation guard, then cache check/rebuild. -/
def layoutCache (hm : Heatmap) (dX dY : ℕ) : Option LayoutResult :=
  (aggStep hm (mkKey dX dY hm)).map fun p =>
    cacheStep p.1 (mkKey dX dY hm) dX dY p.2

/-- One full layout pass, modelling `(*Heatmap).Layout` with `dims = (dX, dY)`
and no new pointer events this frame: the cache stage followed by the hit
test, which stores its bucket into `hm.hovered`.  `none` models a panic. -/
def Layout (hm : Heatmap) (dX dY : ℕ) : Option LayoutResult :=
  (layoutCache hm dX dY).bind fun r =>
    (hitTest r.state dX dY).map fun b =>
      { r with state := { r.state with hovered := b } }

/-! ### Concrete states used as witnesses and counterexamples -/

/-- A baseline heatmap state with Go zero values everywhere. -/
def hm0 : Heatmap :=
  { MaxY := 0, UseLinearColors := false, XBucketSize := 0, YBucketSize := 0,
    numXBuckets := 0, numYBuckets := 0, data := [], origData := [],
    pointerX := 0, pointerY := 0, pointerConstraintX := 0, pointerConstraintY := 0,
    hovered := sentinelBucket, cacheKey := ⟨0, 0, false, 0, 0⟩, cachedMacro := [],
    linearSaturations := [], rankedSaturations := [] }

/-- Concrete input for C6: two series of three samples each
(`MaxY = 4`, `YBucketSize = 2`, so 2 Y buckets; the sample `7` overflows and
clamps). -/
def hmW6 : Heatmap :=
  { hm0 with MaxY := 4, YBucketSize := 2, numXBuckets := 3,
             origData := [[0, 3, 7], [1, 2, 4]] }

/-- Concrete grid for C1: one empty cell and one cell with count 5. -/
def hmC1 : Heatmap :=
  { hm0 with numXBuckets := 2, numYBuckets := 1, data := [0, 5] }

/-- The state produced by `computeSaturations` on `hmC1`. -/
def hmC1sat : Heatmap := (computeSaturations hmC1).getD hm0

/-- Concrete grid for C8: counts `[0, 2, 2]`. -/
def hmC8 : Heatmap :=
  { hm0 with numXBuckets := 3, numYBuckets := 1, data := [0, 2, 2] }

/-- The state produced by `computeSaturations` on `hmC8`. -/
def hmC8sat : Heatmap := (computeSaturations hmC8).getD hm0

/-- Concrete state for C2's counterexample: a captured pointer at `(0, 5)`
with the captured constraint equal to the current `10 × 10` viewport, over a
`1 × 1` grid holding count 1. -/
def hmC2x : Heatmap :=
  { hm0 with numXBuckets := 1, numYBuckets := 1, data := [1],
             pointerX := 0, pointerY := 5,
             pointerConstraintX := 10, pointerConstraintY := 10,
             linearSaturations := [255], rankedSaturations := [255] }

/-- Concrete state for C2's witness: a pointer at `(5, 5)` inside a
`10 × 10` viewport over a `1 × 1` grid holding count 7. -/
def hmW2 : Heatmap :=
  { hm0 with numXBuckets := 1, numYBuckets := 1, data := [7],
             pointerX := 5, pointerY := 5,
             pointerConstraintX := 10, pointerConstraintY := 10,
             linearSaturations := [255], rankedSaturations := [255] }

/-- Concrete state for C3: a `4 × 1` grid in a `100 × 100` viewport, with
the captured pointer exactly on the right edge, `(100, 50)`.  Every
`float32` operation of the hit test is exact on these values
(`xStepPx = 25`, `100 / 25 = 4`, `yStepPx = 100`, `50 / 100 = 0.5`). -/
def hmC3x : Heatmap :=
  { hm0 with numXBuckets := 4, numYBuckets := 1, data := [1, 1, 1, 1],
             pointerX := 100, pointerY := 50,
             pointerConstraintX := 100, pointerConstraintY := 100,
             linearSaturations := [255, 255, 255, 255],
             rankedSaturations := [255, 255, 255, 255] }

/-- Concrete state for C7: a `1 × 1` grid with a single nonzero cell, whose
(ranked) saturation is 255 — exactly one distinct saturation in use. -/
def hmC7x : Heatmap :=
  { hm0 with numXBuckets := 1, numYBuckets := 1, data := [1],
             linearSaturations := [255], rankedSaturations := [255] }

/-- Concrete state for the cache claims: stored key `⟨0,0,false,0,0⟩`, so a
layout pass at `3 × 3` misses the cache (the size fields differ) without
re-aggregating (the bucket-size fields match). -/
def hmB : Heatmap :=
  { hm0 with numXBuckets := 1, numYBuckets := 1, data := [1],
             linearSaturations := [40], rankedSaturations := [255] }

/-- The layout result of the first pass on `hmB` at `3 × 3`. -/
def rB : LayoutResult := (layoutCache hmB 3 3).get (by rfl)

/-- `rB`'s state with the color mode toggled, the input of C10's second
pass. -/
def hmB2 : Heatmap := { rB.state with UseLinearColors := !rB.state.UseLinearColors }

/-- The layout result of the second (color-toggled) pass at `3 × 3`. -/
def r2B : LayoutResult := (layoutCache hmB2 3 3).get (by rfl)

/-! ### Arithmetic facts about the Y-bucket computation -/

lemma ceilDivNat_spec (M Y : ℕ) (hY : 0 < Y) :
    ceilDivNat M Y = M / Y + (if M % Y = 0 then 0 else 1) := by
  have hM : M = Y * (M / Y) + M % Y := (Nat.div_add_mod M Y).symm
  have hr : M % Y < Y := Nat.mod_lt _ hY
  set q := M / Y with hq
  set r := M % Y with hrdef
  unfold ceilDivNat
  rw [show M + Y - 1 = Y * q + (r + Y - 1) by omega, Nat.mul_add_div hY]
  by_cases h0 : r = 0
  · rw [h0]
    simp [Nat.div_eq_of_lt (show Y - 1 < Y by omega)]
  · rw [show r + Y - 1 = (r - 1) + Y by omega, Nat.add_div_right _ hY,
      Nat.div_eq_of_lt (show r - 1 < Y by omega)]
    simp [h0]

lemma yBin_lt (YBS numY v : ℕ) (hnY : 0 < numY) : yBin YBS numY v < numY := by
  simp only [yBin]
  split <;> omega

lemma ceilDivNat_pos (M Y : ℕ) (hY : 0 < Y) (hM : 0 < M) : 0 < ceilDivNat M Y := by
  rw [ceilDivNat_spec M Y hY]
  have h := Nat.div_add_mod M Y
  by_cases h0 : M % Y = 0
  · rcases Nat.eq_zero_or_pos (M / Y) with hq | hq
    · rw [hq, h0] at h; omega
    · rw [if_pos h0, Nat.add_zero]; exact hq
  · rw [if_neg h0]; exact Nat.succ_pos _

/-- C4: for every sample value `v ≥ 0` and `YBucketSize > 0` with
`numYBuckets = ceil(MaxY / YBucketSize) ≥ 1`, the Y bin assigned by
aggregation is in `[0, numYBuckets - 1]`; a sample equal to `MaxY`, and any
sample greater than `MaxY`, is clamped to bin `numYBuckets - 1` rather than
indexed out of bounds. -/
theorem computeBuckets_ybin_clamped (MaxY YBS v : ℕ) (hY : 0 < YBS)
    (hnY : 1 ≤ ceilDivNat MaxY YBS) :
    yBin YBS (ceilDivNat MaxY YBS) v < ceilDivNat MaxY YBS ∧
    (MaxY ≤ v → yBin YBS (ceilDivNat MaxY YBS) v = ceilDivNat MaxY YBS - 1) := by
  refine ⟨yBin_lt _ _ _ hnY, fun hv => ?_⟩
  have hspec := ceilDivNat_spec MaxY YBS hY
  have hdiv : MaxY / YBS ≤ v / YBS := Nat.div_le_div_right hv
  simp only [yBin]
  split
  · rfl
  · by_cases hr : MaxY % YBS = 0
    · simp [hr] at hspec; omega
    · simp [hr] at hspec; omega

/-- Witness for C4 at `MaxY = 100`, `YBucketSize = 10`, `v = 100`
(`numYBuckets = 10`, bin `9`), matching the spec's worked example. -/
theorem computeBuckets_ybin_clamped_w :
    (0 < 10 ∧ 1 ≤ ceilDivNat 100 10) ∧
    (yBin 10 (ceilDivNat 100 10) 100 < ceilDivNat 100 10 ∧
     (100 ≤ 100 → yBin 10 (ceilDivNat 100 10) 100 = ceilDivNat 100 10 - 1)) :=
  ⟨⟨by decide, by decide⟩, computeBuckets_ybin_clamped 100 10 100 (by decide) (by decide)⟩

/-! ### Conservation of samples in the aggregation -/

lemma bumpCell_length (d : List ℕ) (idx : ℕ) : (bumpCell d idx).length = d.length := by
  simp [bumpCell]

lemma bumpCell_sum (d : List ℕ) (idx : ℕ) (h : idx < d.length) :
    (bumpCell d idx).sum = d.sum + 1 := by
  induction d generalizing idx with
  | nil => simp at h
  | cons x xs ih =>
    cases idx with
    | zero =>
      simp [bumpCell, List.set_cons_zero, List.getD_cons_zero, List.sum_cons]
      omega
    | succ n =>
      have hn : n < xs.length := by simpa using h
      have := ih n hn
      simp only [bumpCell, List.set_cons_succ, List.getD_cons_succ, List.sum_cons] at this ⊢
      omega

lemma foldl_bump_enumFrom (YBS numY numX : ℕ) (hnY : 0 < numY) (xb : List ℕ) :
    ∀ (k : ℕ) (d : List ℕ), d.length = numX * numY → k + xb.length ≤ numX →
      (((xb.enumFrom k).foldl
          (fun d2 p => bumpCell d2 (p.1 * numY + yBin YBS numY p.2)) d).length
          = numX * numY ∧
       ((xb.enumFrom k).foldl
          (fun d2 p => bumpCell d2 (p.1 * numY + yBin YBS numY p.2)) d).sum
          = d.sum + xb.length) := by
  induction xb with
  | nil => intro k d hlen _; simp [List.enumFrom, hlen]
  | cons y ys ih =>
    intro k d hlen hk
    have hkx : k + 1 ≤ numX := by
      simp only [List.length_cons] at hk; omega
    have hb := yBin_lt YBS numY y hnY
    have hidx : k * numY + yBin YBS numY y < numX * numY := by
      have h1 : k * numY + yBin YBS numY y < (k + 1) * numY := by
        have h2 : (k + 1) * numY = k * numY + numY := by ring
        omega
      exact lt_of_lt_of_le h1 (Nat.mul_le_mul_right _ hkx)
    have hlen2 : (bumpCell d (k * numY + yBin YBS numY y)).length = numX * numY := by
      rw [bumpCell_length, hlen]
    have hsum2 : (bumpCell d (k * numY + yBin YBS numY y)).sum = d.sum + 1 :=
      bumpCell_sum _ _ (by rw [hlen]; exact hidx)
    have ihres := ih (k + 1) (bumpCell d (k * numY + yBin YBS numY y)) hlen2
      (by simp only [List.length_cons] at hk; omega)
    have hstep : ((y :: ys).enumFrom k).foldl
        (fun d2 p => bumpCell d2 (p.1 * numY + yBin YBS numY p.2)) d
        = (ys.enumFrom (k + 1)).foldl
            (fun d2 p => bumpCell d2 (p.1 * numY + yBin YBS numY p.2))
            (bumpCell d (k * numY + yBin YBS numY y)) := rfl
    rw [hstep]
    refine ⟨ihres.1, ?_⟩
    rw [ihres.2, hsum2]
    simp only [List.length_cons]
    omega

lemma foldl_series_sum (YBS numY numX : ℕ) (hnY : 0 < numY) (ls : List (List ℕ)) :
    ∀ d : List ℕ, (∀ xb ∈ ls, xb.length ≤ numX) → d.length = numX * numY →
      ((ls.foldl (fun d xBuckets => xBuckets.enum.foldl
          (fun d2 p => bumpCell d2 (p.1 * numY + yBin YBS numY p.2)) d) d).length
          = numX * numY ∧
       (ls.foldl (fun d xBuckets => xBuckets.enum.foldl
          (fun d2 p => bumpCell d2 (p.1 * numY + yBin YBS numY p.2)) d) d).sum
          = d.sum + (ls.map List.length).sum) := by
  induction ls with
  | nil => intro d _ hlen; simp [hlen]
  | cons xb rest ih =>
    intro d hall hlen
    have hxb : xb.length ≤ numX := hall xb (by simp)
    have henum : xb.enum = xb.enumFrom 0 := rfl
    have inner := foldl_bump_enumFrom YBS numY numX hnY xb 0 d hlen (by omega)
    have hstep : ((xb :: rest).foldl (fun d xBuckets => xBuckets.enum.foldl
          (fun d2 p => bumpCell d2 (p.1 * numY + yBin YBS numY p.2)) d) d)
        = rest.foldl (fun d xBuckets => xBuckets.enum.foldl
          (fun d2 p => bumpCell d2 (p.1 * numY + yBin YBS numY p.2)) d)
          (xb.enum.foldl
            (fun d2 p => bumpCell d2 (p.1 * numY + yBin YBS numY p.2)) d) := rfl
    rw [hstep, henum]
    have ihres := ih ((xb.enumFrom 0).foldl
        (fun d2 p => bumpCell d2 (p.1 * numY + yBin YBS numY p.2)) d)
      (fun s hs => hall s (by simp [hs])) inner.1
    refine ⟨ihres.1, ?_⟩
    rw [ihres.2, inner.2]
    simp only [List.map_cons, List.sum_cons]
    omega

lemma computeBucketsData_sum (YBS numY numX : ℕ) (hnY : 0 < numY)
    (ls : List (List ℕ)) (hall : ∀ xb ∈ ls, xb.length ≤ numX) :
    (computeBucketsData YBS numY numX ls).length = numX * numY ∧
    (computeBucketsData YBS numY numX ls).sum = (ls.map List.length).sum := by
  have base := foldl_series_sum YBS numY numX hnY ls
    (List.replicate (numX * numY) 0) hall (by simp)
  unfold computeBucketsData
  simpa using base

/-- C6: for every raw series input whose sequences are no longer than
`numXBuckets` (the spec's rectangularity precondition), with positive
`MaxY` and `YBucketSize`, the sum of all grid cell counts after aggregation
equals the total number of samples fed in: every sample increments exactly
one cell. -/
theorem computeBuckets_count_conservation (hm : Heatmap)
    (hY : 0 < hm.YBucketSize) (hM : 0 < hm.MaxY)
    (hrect : ∀ xb ∈ hm.origData, xb.length = hm.numXBuckets) :
    (computeBuckets hm).data.sum = (hm.origData.map List.length).sum := by
  have hnY : 0 < ceilDivNat hm.MaxY hm.YBucketSize := ceilDivNat_pos _ _ hY hM
  have hdata : (computeBuckets hm).data
      = computeBucketsData hm.YBucketSize (ceilDivNat hm.MaxY hm.YBucketSize)
          hm.numXBuckets hm.origData := rfl
  rw [hdata]
  exact (computeBucketsData_sum _ _ _ hnY _
    (fun xb hs => le_of_eq (hrect xb hs))).2

/-- Witness for C6 on a concrete 2-series input with 6 samples. -/
theorem computeBuckets_count_conservation_w :
    (0 < hmW6.YBucketSize ∧ 0 < hmW6.MaxY) ∧
    (computeBuckets hmW6).data.sum = (hmW6.origData.map List.length).sum :=
  ⟨⟨by decide, by decide⟩,
    computeBuckets_count_conservation hmW6 (by decide) (by decide) (by decide)⟩

/-! ### The saturation pass: dedup, search, and both tables -/

lemma mem_dedupKeep (prev : ℕ) (l : List ℕ) (v : ℕ) (hv : v ∈ l) :
    v = prev ∨ v ∈ dedupKeep prev l := by
  induction l generalizing prev with
  | nil => simp at hv
  | cons x xs ih =>
    rcases List.mem_cons.mp hv with rfl | hvs
    · by_cases hx : v = prev
      · exact Or.inl hx
      · right
        simp [dedupKeep, hx]
    · by_cases hx : x = prev
      · rcases ih prev hvs with h | h
        · exact Or.inl h
        · right; simp [dedupKeep, hx, h]
      · rcases ih x hvs with h | h
        · right; simp [dedupKeep, hx, h]
        · right; simp [dedupKeep, hx, h]

lemma mem_dedupSorted (l : List ℕ) (v : ℕ) (hv : v ∈ l) : v ∈ dedupSorted l := by
  cases l with
  | nil => simp at hv
  | cons x xs =>
    rcases List.mem_cons.mp hv with rfl | hvs
    · simp [dedupSorted]
    · rcases mem_dedupKeep x xs v hvs with h | h
      · simp [dedupSorted, h]
      · simp [dedupSorted, h]

lemma mem_uniqueOf (data : List ℕ) (v : ℕ) (hv : v ∈ data) : v ∈ uniqueOf data :=
  mem_dedupSorted _ _ ((List.mem_insertionSort (· ≤ ·)).mpr hv)

lemma searchInts_lt_length (a : List ℕ) (x : ℕ) (hx : x ∈ a) :
    searchInts a x < a.length := by
  induction a with
  | nil => simp at hx
  | cons h t ih =>
    rcases List.mem_cons.mp hx with rfl | hxt
    · simp [searchInts, List.takeWhile]
    · unfold searchInts at ih ⊢
      by_cases hh : h < x
      · simpa [List.takeWhile, hh] using ih hxt
      · simp [List.takeWhile, hh]

lemma searchInts_mono (a : List ℕ) (x1 x2 : ℕ) (h : x1 ≤ x2) :
    searchInts a x1 ≤ searchInts a x2 := by
  induction a with
  | nil => simp [searchInts]
  | cons hd t ih =>
    unfold searchInts at ih ⊢
    by_cases h1 : hd < x1
    · have h2 : hd < x2 := lt_of_lt_of_le h1 h
      simpa [List.takeWhile, h1, h2] using ih
    · simp [List.takeWhile, h1]

lemma satPair_eq_of_mem (unique : List ℕ) (maxV v : ℕ) (hv : v ∈ unique) :
    satPair unique maxV v = some (rankSat unique v, linSat maxV v) := by
  have h := searchInts_lt_length unique v hv
  simp [satPair, rankSat, linSat, Nat.ne_of_lt h]

lemma satTables_eq_map (unique : List ℕ) (maxV : ℕ) (l : List ℕ)
    (hall : ∀ v ∈ l, v ∈ unique) :
    satTables unique maxV l = some (l.map (rankSat unique), l.map (linSat maxV)) := by
  induction l with
  | nil => simp [satTables]
  | cons v vs ih =>
    have hv : v ∈ unique := hall v (by simp)
    have ihres := ih (fun w hw => hall w (by simp [hw]))
    simp [satTables, satPair_eq_of_mem unique maxV v hv, ihres]

lemma computeSaturations_eq (hm : Heatmap) (hne : hm.data ≠ []) :
    computeSaturations hm
      = some { hm with rankedSaturations := hm.data.map (rankSat (uniqueOf hm.data)),
                       linearSaturations := hm.data.map (linSat (maxCount hm.data)) } := by
  unfold computeSaturations
  rw [if_neg hne]
  have htab := satTables_eq_map (uniqueOf hm.data) (maxCount hm.data) hm.data
    (fun v hv => mem_uniqueOf hm.data v hv)
  rw [htab]

lemma computeSaturations_isSome (hm : Heatmap) : (computeSaturations hm).isSome = true := by
  by_cases hne : hm.data = []
  · unfold computeSaturations
    rw [if_pos hne]
    rfl
  · rw [computeSaturations_eq hm hne]
    rfl

/-- C9: `computeSaturations` on an empty grid is a no-op (the state, and in
particular both saturation tables, is returned untouched), and on any grid
the search always succeeds: the `panic("couldn't find bucket")` branch
(modelled by `none`) is unreachable. -/
theorem computeSaturations_total (hm : Heatmap) :
    (hm.data = [] → computeSaturations hm = some hm) ∧ computeSaturations hm ≠ none := by
  constructor
  · intro he
    unfold computeSaturations
    rw [if_pos he]
  · intro hcontra
    have := computeSaturations_isSome hm
    rw [hcontra] at this
    simp at this

/-- Witness for C9: the empty grid is returned untouched, and a non-empty
grid does not panic. -/
theorem computeSaturations_total_w :
    computeSaturations hm0 = some hm0 ∧ computeSaturations hmC8 ≠ none :=
  ⟨(computeSaturations_total hm0).1 rfl, (computeSaturations_total hmC8).2⟩

lemma getD_map (f : ℕ → ℕ) (l : List ℕ) (i : ℕ) (hi : i < l.length) :
    (l.map f).getD i 0 = f (l.getD i 0) := by
  induction l generalizing i with
  | nil => simp at hi
  | cons x xs ih =>
    cases i with
    | zero => simp
    | succ n =>
      have hn : n < xs.length := by simpa using hi
      simpa using ih n hn

lemma clamp1_mono (a b : ℕ) (h : a ≤ b) :
    (if a = 0 then 1 else a) ≤ (if b = 0 then 1 else b) := by
  by_cases ha : a = 0 <;> by_cases hb : b = 0 <;> simp [ha, hb] <;> omega

lemma rankSat_mono (unique : List ℕ) (v1 v2 : ℕ) (h : v1 ≤ v2) :
    rankSat unique v1 ≤ rankSat unique v2 := by
  unfold rankSat
  exact clamp1_mono _ _
    (Nat.div_le_div_right (Nat.mul_le_mul_left 255
      (Nat.add_le_add_right (searchInts_mono unique v1 v2 h) 1)))

/-- C8: rank saturation is monotone in the cell count — for two cells `i, j`
of the same grid, `data[i] < data[j]` implies
`rankedSaturations[i] ≤ rankedSaturations[j]`, and equal counts receive
equal ranked saturations. -/
theorem computeSaturations_rank_monotone (hm hm2 : Heatmap)
    (h : computeSaturations hm = some hm2) (i j : ℕ)
    (hi : i < hm.data.length) (hj : j < hm.data.length) :
    (hm.data.getD i 0 < hm.data.getD j 0 →
      hm2.rankedSaturations.getD i 0 ≤ hm2.rankedSaturations.getD j 0) ∧
    (hm.data.getD i 0 = hm.data.getD j 0 →
      hm2.rankedSaturations.getD i 0 = hm2.rankedSaturations.getD j 0) := by
  have hne : hm.data ≠ [] := by
    intro he
    rw [he] at hi
    simp at hi
  rw [computeSaturations_eq hm hne] at h
  have h2 : hm2.rankedSaturations = hm.data.map (rankSat (uniqueOf hm.data)) := by
    have := congrArg (fun o => (Option.getD o hm0).rankedSaturations) h
    simpa using this.symm
  rw [h2, getD_map _ _ i hi, getD_map _ _ j hj]
  constructor
  · intro hlt
    exact rankSat_mono _ _ _ (le_of_lt hlt)
  · intro heq
    rw [heq]

/-- Witness for C8 on the grid `[0, 2, 2]`: count `0 < 2` gives ordered
ranked saturations, and the two cells of count `2` get equal ones. -/
theorem computeSaturations_rank_monotone_w :
    (hmC8.data.getD 0 0 < hmC8.data.getD 1 0 ∧
      hmC8sat.rankedSaturations.getD 0 0 ≤ hmC8sat.rankedSaturations.getD 1 0) ∧
    (hmC8.data.getD 1 0 = hmC8.data.getD 2 0 ∧
      hmC8sat.rankedSaturations.getD 1 0 = hmC8sat.rankedSaturations.getD 2 0) :=
  ⟨⟨by decide,
    (computeSaturations_rank_monotone hmC8 hmC8sat rfl 0 1 (by decide) (by decide)).1
      (by decide)⟩,
   ⟨by decide,
    (computeSaturations_rank_monotone hmC8 hmC8sat rfl 1 2 (by decide) (by decide)).2
      (by decide)⟩⟩

/-! ### C1: linear saturation of empty cells -/

/-- C1 counterexample: on the grid `[0, 5]` the zero-count cell receives
linear saturation 1, not 0 — the clamp `if s == 0 { s = 1 }` is applied
without checking `v > 0`, so saturation 0 is not reserved for empty cells. -/
theorem computeSaturations_zero_cell_cex :
    computeSaturations hmC1 = some hmC1sat ∧
    hmC1.data.getD 0 9 = 0 ∧
    hmC1sat.linearSaturations.getD 0 0 = 1 := by
  refine ⟨rfl, rfl, rfl⟩

/-- C1 (amended): after `computeSaturations` on a non-empty grid with a
positive maximum count, every cell whose count is exactly 0 has linear
saturation exactly 1 (the clamp-to-1 applies to zero-count cells too), so
linear saturation 0 is never assigned; the renderer skips empty cells by
testing the count directly, not the saturation. -/
theorem computeSaturations_zero_cell_linear (hm hm2 : Heatmap)
    (h : computeSaturations hm = some hm2)
    (_hmax : 0 < maxCount hm.data) (i : ℕ) (hi : i < hm.data.length)
    (h0 : hm.data.getD i 0 = 0) :
    hm2.linearSaturations.getD i 0 = 1 := by
  have hne : hm.data ≠ [] := by
    intro he; rw [he] at hi; simp at hi
  rw [computeSaturations_eq hm hne] at h
  have h2 : hm2.linearSaturations = hm.data.map (linSat (maxCount hm.data)) := by
    have := congrArg (fun o => (Option.getD o hm0).linearSaturations) h
    simpa using this.symm
  rw [h2, getD_map _ _ i hi, h0]
  simp [linSat]

/-- Witness for the amended C1 on the grid `[0, 5]`. -/
theorem computeSaturations_zero_cell_linear_w :
    (0 < maxCount hmC1.data ∧ hmC1.data.getD 0 0 = 0) ∧
    hmC1sat.linearSaturations.getD 0 0 = 1 :=
  ⟨⟨by decide, by decide⟩,
    computeSaturations_zero_cell_linear hmC1 hmC1sat rfl (by decide) 0
      (by decide) (by decide)⟩

/-! ### C2 and C3: the hover guard and the hit test -/

/-- C2 (amended): the hit test reports the sentinel `{Count: -1}` exactly
when the captured viewport differs from the current one or the captured
pointer lies outside `(0, width] × (0, height]` (the guard is strict at 0,
so positions on the left or top edge are invalid); and when the hover is
valid and the flattened lookup index is in range, the reported count is the
grid cell's count. -/
theorem hitTest_sentinel_iff (hm : Heatmap) (dX dY : ℕ) :
    ((hitTest hm dX dY).map HeatmapBucket.Count = some (-1) ↔ ¬ hoverValid hm dX dY) ∧
    (hoverValid hm dX dY → ∀ v : ℕ,
      hm.data.get? (hoverX hm dX * hm.numYBuckets + hoverY hm dY) = some v →
      (hitTest hm dX dY).map HeatmapBucket.Count = some ((v : ℤ))) := by
  by_cases hv : hoverValid hm dX dY
  · refine ⟨⟨fun hmap => ?_, fun hnv => absurd hv hnv⟩, fun _ v hget => ?_⟩
    · exfalso
      unfold hitTest at hmap
      rw [if_pos hv] at hmap
      cases hget : hm.data.get? (hoverX hm dX * hm.numYBuckets + hoverY hm dY) with
      | none => rw [hget] at hmap; simp at hmap
      | some w =>
        rw [hget] at hmap
        simp at hmap
    · unfold hitTest
      rw [if_pos hv, hget]
      rfl
  · refine ⟨⟨fun _ => hv, fun _ => ?_⟩, fun h2 => absurd h2 hv⟩
    unfold hitTest
    rw [if_neg hv]
    rfl

/-- Witness for C2: a valid hover at `(5, 5)` in a `10 × 10` viewport over a
`1 × 1` grid with count 7 reports count 7. -/
theorem hitTest_sentinel_iff_w :
    hoverValid hmW2 10 10 ∧
    (hitTest hmW2 10 10).map HeatmapBucket.Count = some ((7 : ℕ) : ℤ) := by
  have hvalid : hoverValid hmW2 10 10 :=
    ⟨rfl, rfl, by norm_num [hmW2, hm0], by norm_num [hmW2, hm0],
     by norm_num [hmW2, hm0], by norm_num [hmW2, hm0]⟩
  have hx : hoverX hmW2 10 = 0 := by
    unfold hoverX
    norm_num [hmW2, hm0]
  have hy : hoverY hmW2 10 = 0 := by
    unfold hoverY
    norm_num [hmW2, hm0]
  have hget : hmW2.data.get? (hoverX hmW2 10 * hmW2.numYBuckets + hoverY hmW2 10)
      = some 7 := by
    rw [hx, hy]
    rfl
  exact ⟨hvalid, (hitTest_sentinel_iff hmW2 10 10).2 hvalid 7 hget⟩

/-- C2 counterexample: the captured viewport equals the current one and the
captured pointer `(0, 5)` lies inside `[0, 10] × [0, 10]`, yet the hit test
reports the sentinel `{Count: -1}`: the code requires `pointer.X > 0`
strictly, so the rectangle of valid positions is `(0, w] × (0, h]`, not
`[0, w] × [0, h]`. -/
theorem hitTest_boundary_cex :
    hmC2x.pointerConstraintX = 10 ∧ hmC2x.pointerConstraintY = 10 ∧
    0 ≤ hmC2x.pointerX ∧ 0 ≤ hmC2x.pointerY ∧
    hmC2x.pointerX ≤ (10 : ℚ) ∧ hmC2x.pointerY ≤ (10 : ℚ) ∧
    (hitTest hmC2x 10 10).map HeatmapBucket.Count = some (-1) := by
  refine ⟨rfl, rfl, by norm_num [hmC2x, hm0], by norm_num [hmC2x, hm0],
    by norm_num [hmC2x, hm0], by norm_num [hmC2x, hm0], ?_⟩
  have hnv : ¬ hoverValid hmC2x 10 10 := by
    intro hcontra
    have := hcontra.2.2.1
    norm_num [hmC2x, hm0] at this
  unfold hitTest
  rw [if_neg hnv]
  rfl

/-- C3 (code bug): with the captured pointer exactly on the right edge
(`pointer.X = width = 100`, allowed by the guard's `<=`), the computed X
bucket index equals `numXBuckets = 4`, so the flattened grid lookup
`hm.data[x*hm.numYBuckets+y]` indexes past the end of `data` and the
layout pass panics (modelled by `hitTest = none`).  All `float32`
operations are exact on this input. -/
theorem hitTest_right_edge_out_of_bounds :
    hoverValid hmC3x 100 100 ∧
    hoverX hmC3x 100 = hmC3x.data.length / hmC3x.numYBuckets ∧
    hitTest hmC3x 100 100 = none := by
  have hvalid : hoverValid hmC3x 100 100 :=
    ⟨rfl, rfl, by norm_num [hmC3x, hm0], by norm_num [hmC3x, hm0],
     by norm_num [hmC3x, hm0], by norm_num [hmC3x, hm0]⟩
  have hx : hoverX hmC3x 100 = 4 := by
    unfold hoverX
    norm_num [hmC3x, hm0]
    omega
  have hy : hoverY hmC3x 100 = 0 := by
    unfold hoverY
    norm_num [hmC3x, hm0]
  refine ⟨hvalid, by rw [hx]; rfl, ?_⟩
  unfold hitTest
  rw [if_pos hvalid, hx, hy]
  rfl

/-! ### The cache stage: memoization, rebuilds, and the fill-count bound -/

lemma computeSaturations_preserves (hm hm2 : Heatmap)
    (h : computeSaturations hm = some hm2) :
    hm2.cacheKey = hm.cacheKey ∧ hm2.UseLinearColors = hm.UseLinearColors ∧
    hm2.XBucketSize = hm.XBucketSize ∧ hm2.YBucketSize = hm.YBucketSize := by
  by_cases hne : hm.data = []
  · unfold computeSaturations at h
    rw [if_pos hne] at h
    injection h with h2
    rw [← h2]
    exact ⟨rfl, rfl, rfl, rfl⟩
  · rw [computeSaturations_eq hm hne] at h
    injection h with h2
    rw [← h2]
    exact ⟨rfl, rfl, rfl, rfl⟩

lemma aggStep_preserves (hm : Heatmap) (key : heatmapCacheKey) (p : Heatmap × Bool)
    (h : aggStep hm key = some p) :
    p.1.cacheKey = hm.cacheKey ∧ p.1.UseLinearColors = hm.UseLinearColors ∧
    p.1.XBucketSize = hm.XBucketSize ∧ p.1.YBucketSize = hm.YBucketSize := by
  unfold aggStep at h
  by_cases hc : key.xBucketSize = hm.cacheKey.xBucketSize ∧
      key.yBucketSize = hm.cacheKey.yBucketSize
  · rw [if_pos hc] at h
    injection h with h2
    rw [← h2]
    exact ⟨rfl, rfl, rfl, rfl⟩
  · rw [if_neg hc] at h
    cases hcs : computeSaturations
        (computeBuckets { hm with numXBuckets := (hm.origData.headD []).length }) with
    | none => rw [hcs] at h; simp at h
    | some hmS =>
      rw [hcs] at h
      simp only [Option.map_some'] at h
      injection h with h2
      obtain ⟨hck, hul, hxb, hyb⟩ := computeSaturations_preserves _ _ hcs
      rw [← h2]
      exact ⟨hck, hul, hxb, hyb⟩

lemma isSome_map_opt {α β : Type} (f : α → β) (o : Option α) :
    (o.map f).isSome = o.isSome := by
  cases o <;> rfl

lemma aggStep_isSome (hm : Heatmap) (key : heatmapCacheKey) :
    (aggStep hm key).isSome = true := by
  unfold aggStep
  split
  · rfl
  · rw [isSome_map_opt]
    exact computeSaturations_isSome _

lemma layoutCache_isSome (hm : Heatmap) (dX dY : ℕ) :
    (layoutCache hm dX dY).isSome = true := by
  unfold layoutCache
  rw [isSome_map_opt]
  exact aggStep_isSome hm _

lemma layoutCache_facts (hm : Heatmap) (dX dY : ℕ) (r : LayoutResult)
    (h : layoutCache hm dX dY = some r) :
    r.state.cacheKey = mkKey dX dY hm ∧
    r.state.UseLinearColors = hm.UseLinearColors ∧
    r.state.XBucketSize = hm.XBucketSize ∧ r.state.YBucketSize = hm.YBucketSize := by
  unfold layoutCache at h
  cases hagg : aggStep hm (mkKey dX dY hm) with
  | none => rw [hagg] at h; simp at h
  | some p =>
    rw [hagg] at h
    simp only [Option.map_some'] at h
    injection h with h2
    obtain ⟨hck, hul, hxb, hyb⟩ := aggStep_preserves hm _ p hagg
    rw [← h2]
    unfold cacheStep
    split
    · rename_i hc
      exact ⟨by rw [hc], hul, hxb, hyb⟩
    · exact ⟨rfl, hul, hxb, hyb⟩

/-- C5: the cache stage of `Layout` is memoized on the cache key.  It never
panics; a second pass on the returned state with the same viewport hits the
cache: no aggregation, no geometry rebuild, the stored macro is replayed
and the state is unchanged.  And whenever the current key differs from the
stored one (in particular when exactly one field differs), the pass
rebuilds: it emits freshly built geometry and stores the new key and the
new geometry in place of the old ones. -/
theorem Layout_cache_memoization (hm : Heatmap) (dX dY : ℕ) :
    (layoutCache hm dX dY).isSome = true ∧
    (∀ r1, layoutCache hm dX dY = some r1 →
      layoutCache r1.state dX dY
        = some ⟨r1.state, false, false, r1.state.cachedMacro⟩) ∧
    (mkKey dX dY hm ≠ hm.cacheKey →
      ∀ r, layoutCache hm dX dY = some r →
        r.didRebuild = true ∧ r.state.cacheKey = mkKey dX dY hm ∧
        r.emitted = buildGeometry r.state dX dY ∧
        r.state.cachedMacro = r.emitted) := by
  refine ⟨layoutCache_isSome hm dX dY, ?_, ?_⟩
  · intro r1 h1
    obtain ⟨hck, hul, hxb, hyb⟩ := layoutCache_facts hm dX dY r1 h1
    have hkey : mkKey dX dY r1.state = mkKey dX dY hm := by
      unfold mkKey
      rw [hul, hxb, hyb]
    have hagg : aggStep r1.state (mkKey dX dY r1.state) = some (r1.state, false) := by
      unfold aggStep
      rw [if_pos ⟨by rw [hck, hkey], by rw [hck, hkey]⟩]
    unfold layoutCache
    rw [hagg]
    simp only [Option.map_some']
    unfold cacheStep
    rw [if_pos (by rw [hck, hkey])]
  · intro hne r h
    unfold layoutCache at h
    cases hagg : aggStep hm (mkKey dX dY hm) with
    | none => rw [hagg] at h; simp at h
    | some p =>
      rw [hagg] at h
      simp only [Option.map_some'] at h
      injection h with h2
      obtain ⟨hck, _, _, _⟩ := aggStep_preserves hm _ p hagg
      rw [← h2]
      unfold cacheStep
      rw [if_neg (by rw [hck]; exact fun hcontra => hne hcontra.symm)]
      exact ⟨rfl, rfl, rfl, rfl⟩

/-- Witness for C5: on `hmB` at `3 × 3` the key differs from the stored one
(only the viewport size differs), so the pass rebuilds and stores the new
key and geometry; a second pass at the same size replays the cache. -/
theorem Layout_cache_memoization_w :
    (rB.didRebuild = true ∧ rB.state.cacheKey = mkKey 3 3 hmB ∧
      rB.emitted = buildGeometry rB.state 3 3 ∧
      rB.state.cachedMacro = rB.emitted) ∧
    layoutCache rB.state 3 3 = some ⟨rB.state, false, false, rB.state.cachedMacro⟩ :=
  ⟨(Layout_cache_memoization hmB 3 3).2.2 (by decide) rB
      (Option.some_get (layoutCache_isSome hmB 3 3)).symm,
   (Layout_cache_memoization hmB 3 3).2.1 rB
      (Option.some_get (layoutCache_isSome hmB 3 3)).symm⟩

/-- C10: if two consecutive cache passes at the same viewport differ only in
the color mode, the second pass leaves the grid and both saturation tables
unchanged and performs no re-aggregation — it only rebuilds geometry via
the cache key. -/
theorem Layout_color_toggle_no_recompute (hm : Heatmap) (dX dY : ℕ)
    (r1 : LayoutResult) (h1 : layoutCache hm dX dY = some r1)
    (s2 : Heatmap)
    (hs2 : s2 = { r1.state with UseLinearColors := !r1.state.UseLinearColors })
    (r2 : LayoutResult) (h2 : layoutCache s2 dX dY = some r2) :
    r2.state.data = r1.state.data ∧
    r2.state.linearSaturations = r1.state.linearSaturations ∧
    r2.state.rankedSaturations = r1.state.rankedSaturations ∧
    r2.didAggregate = false ∧ r2.didRebuild = true := by
  obtain ⟨hck, hul, hxb, hyb⟩ := layoutCache_facts hm dX dY r1 h1
  have hs2x : s2.XBucketSize = r1.state.XBucketSize := by rw [hs2]
  have hs2y : s2.YBucketSize = r1.state.YBucketSize := by rw [hs2]
  have hs2ck : s2.cacheKey = r1.state.cacheKey := by rw [hs2]
  have hs2ul : s2.UseLinearColors = !r1.state.UseLinearColors := by rw [hs2]
  have hc1 : (mkKey dX dY s2).xBucketSize = s2.cacheKey.xBucketSize := by
    rw [hs2ck, hck]
    simp only [mkKey]
    rw [hs2x, hxb]
  have hc2 : (mkKey dX dY s2).yBucketSize = s2.cacheKey.yBucketSize := by
    rw [hs2ck, hck]
    simp only [mkKey]
    rw [hs2y, hyb]
  have hagg : aggStep s2 (mkKey dX dY s2) = some (s2, false) := by
    unfold aggStep
    rw [if_pos ⟨hc1, hc2⟩]
  have hne : ¬ s2.cacheKey = mkKey dX dY s2 := by
    rw [hs2ck, hck]
    intro hcontra
    have hcu := congrArg heatmapCacheKey.useLinearColors hcontra
    simp only [mkKey] at hcu
    rw [hs2ul, hul] at hcu
    simp at hcu
  unfold layoutCache at h2
  rw [hagg] at h2
  simp only [Option.map_some'] at h2
  injection h2 with h3
  rw [← h3]
  unfold cacheStep
  rw [if_neg hne]
  exact ⟨by rw [hs2], by rw [hs2], by rw [hs2], rfl, rfl⟩

set_option maxRecDepth 8192 in
/-- Witness for C10: toggling the color mode between two `3 × 3` passes on
`hmB` keeps the grid and both saturation tables and skips aggregation while
rebuilding the geometry. -/
theorem Layout_color_toggle_no_recompute_w :
    r2B.state.data = rB.state.data ∧
    r2B.state.linearSaturations = rB.state.linearSaturations ∧
    r2B.state.rankedSaturations = rB.state.rankedSaturations ∧
    r2B.didAggregate = false ∧ r2B.didRebuild = true :=
  Layout_color_toggle_no_recompute hmB 3 3 rB
    (Option.some_get (layoutCache_isSome hmB 3 3)).symm
    hmB2 rfl r2B
    (Option.some_get (layoutCache_isSome hmB2 3 3)).symm

/-- C7 counterexample: on a grid whose single nonzero cell uses exactly one
distinct saturation, the rebuild still emits 256 fill operations, not one
per distinct saturation actually used. -/
theorem buildGeometry_cex :
    usedSaturations hmC7x = [255] ∧ (buildGeometry hmC7x 10 10).length = 256 :=
  ⟨rfl, by simp [buildGeometry]⟩

/-- C7 (amended): a cache rebuild emits exactly one fill operation per
possible saturation value — 256 in total, in saturation order, including
saturations used by no nonzero cell (whose paths are empty) — and therefore
at most 256 fill operations regardless of grid resolution. -/
theorem buildGeometry_always_256 (hm : Heatmap) (dX dY : ℕ) :
    (buildGeometry hm dX dY).length = 256 ∧
    (buildGeometry hm dX dY).map Prod.fst = List.range 256 := by
  constructor
  · simp [buildGeometry]
  · unfold buildGeometry
    rw [List.map_map]
    exact List.map_id (List.range 256)
